import Mathlib

/-!
Shallow embedding of the PVSS core of `aptos-dkg` (threshold / weighted
secret-sharing configurations, the SCRAPE transcript protocol, dealt-key
reconstruction and public-parameter serialization), together with proofs
checking the natural-language specification against the code.

Group elements, scalars and byte-level primitives of the external curve
library (`blstrs`) are kept abstract: definitions are parameterized over the
carrier types and the few operations the code uses (addition, scalar
multiplication, compressed encode/decode), with no algebraic laws assumed
beyond what a witness instantiation supplies.
-/

namespace AptosDkg

/-- `Player` (src/pvss/player.rs): an identifier from `0` to `n-1`. -/
structure Player where
  id : ℕ
deriving DecidableEq, Repr

/-- Modelled from the spec: `EvaluationDomain` (src/algebra/evaluation_domain.rs
is not under src/): "the size-N set of N-th roots of unity used for one FFT".
Only the size is relevant to the configuration claims; the roots themselves
are opaque. -/
structure EvaluationDomain where
  N : ℕ
deriving DecidableEq, Repr

/-- Modelled from the spec: `BatchEvaluationDomain` (src/algebra/evaluation_domain.rs
is not under src/): "the largest-needed roots-of-unity table", of size the
next power of two ≥ n. -/
structure BatchEvaluationDomain where
  N : ℕ
deriving DecidableEq, Repr

/-- Modelled from the spec: `BatchEvaluationDomain::new(n)` "precomputes the
powers of a primitive root of order N = next power of two ≥ n". -/
def BatchEvaluationDomain.new (n : ℕ) : BatchEvaluationDomain :=
  ⟨2 ^ Nat.clog 2 n⟩

/-- Modelled from the spec: `BatchEvaluationDomain::get_subdomain(k)` "returns
a size-k `EvaluationDomain` view without recomputation". -/
def BatchEvaluationDomain.get_subdomain (batch_dom : BatchEvaluationDomain)
    (k : ℕ) : EvaluationDomain :=
  ⟨min k batch_dom.N⟩

/-- `ThresholdConfig` (src/pvss/threshold_config.rs): threshold `t`, number of
players `n`, and the two evaluation domains built at construction time. -/
structure ThresholdConfig where
  t : ℕ
  n : ℕ
  dom : EvaluationDomain
  batch_dom : BatchEvaluationDomain
deriving DecidableEq, Repr

/-- `ThresholdConfig::new(t, n)` (src/pvss/threshold_config.rs:27-36): builds
the batch domain for `n` and its size-`n` subdomain, and stores `t` and `n`.
The source body contains no assertion on `t` or `n`. -/
def ThresholdConfig.new (t n : ℕ) : ThresholdConfig :=
  let batch_dom := BatchEvaluationDomain.new n
  let dom := batch_dom.get_subdomain n
  { t := t, n := n, dom := dom, batch_dom := batch_dom }

/-- `ThresholdConfig::get_threshold` (src/pvss/threshold_config.rs:39-41). -/
def ThresholdConfig.get_threshold (sc : ThresholdConfig) : ℕ := sc.t

/-- `SecretSharingConfig::get_total_num_players` for `ThresholdConfig`
(src/pvss/threshold_config.rs:70-72). -/
def ThresholdConfig.get_total_num_players (sc : ThresholdConfig) : ℕ := sc.n

/-- `SecretSharingConfig::get_total_num_shares` for `ThresholdConfig`
(src/pvss/threshold_config.rs:74-76). -/
def ThresholdConfig.get_total_num_shares (sc : ThresholdConfig) : ℕ := sc.n

/-- The trait-default `SecretSharingConfig::get_player(i)`
(src/pvss/traits/mod.rs:28-33): `assert_lt!(i, n)` then wrap the index.
The assertion failure (a panic) is modelled as `none`. -/
def ThresholdConfig.get_player (sc : ThresholdConfig) (i : ℕ) : Option Player :=
  if i < sc.get_total_num_players then some ⟨i⟩ else none

/-- `WeightedConfig` (src/pvss/weighted/weighted_config.rs): the derived
`ThresholdConfig(w, W)`, the number of real players `n`, the per-player
weights, and the starting-index table. -/
structure WeightedConfig where
  tc : ThresholdConfig
  n : ℕ
  weight : List ℕ
  starting_index : List ℕ
deriving DecidableEq, Repr

/-- The starting-index construction loop of `WeightedConfig::new`
(src/pvss/weighted/weighted_config.rs:41-46): start from `[0]`, push
`last().unwrap() + w` for each weight `w`, then pop the final element.
The accumulator starts nonempty and only grows, so the `unwrap` never sees an
empty list; its panic case is modelled by the (unreachable) default `0`. -/
def buildStartingIndex (weight : List ℕ) : List ℕ :=
  (weight.foldl (fun si w => si ++ [si.getLast?.getD 0 + w]) [0]).dropLast

/-- `WeightedConfig::new(w, n, weight)`
(src/pvss/weighted/weighted_config.rs:33-57): `W = Σ weight`, the
starting-index table, and the inner `ThresholdConfig::new(w, W)`. The source
body contains no check relating `weight.len()` to `n`. -/
def WeightedConfig.new (w n : ℕ) (weight : List ℕ) : WeightedConfig :=
  let W := weight.sum
  let starting_index := buildStartingIndex weight
  let tc := ThresholdConfig.new w W
  { tc := tc, n := n, weight := weight, starting_index := starting_index }

/-- `WeightedConfig::get_threshold_config` (src/pvss/weighted/weighted_config.rs:59-61). -/
def WeightedConfig.get_threshold_config (sc : WeightedConfig) : ThresholdConfig := sc.tc

/-- `WeightedConfig::get_total_weight` (src/pvss/weighted/weighted_config.rs:67-69):
returns `sc.tc.n`, i.e. the total weight `W`. -/
def WeightedConfig.get_total_weight (sc : WeightedConfig) : ℕ := sc.tc.n

/-- `SecretSharingConfig::get_total_num_players` for `WeightedConfig`
(src/pvss/weighted/weighted_config.rs:118-120): the number of real players `n`. -/
def WeightedConfig.get_total_num_players (sc : WeightedConfig) : ℕ := sc.n

/-- `WeightedConfig::get_player_weight` (src/pvss/weighted/weighted_config.rs:71-73):
`self.weight[player.id]`; the out-of-bounds panic is modelled as `none`. -/
def WeightedConfig.get_player_weight (sc : WeightedConfig) (player : Player) :
    Option ℕ :=
  sc.weight[player.id]?

/-- The trait-default `SecretSharingConfig::get_player(i)` as instantiated for
`WeightedConfig` (src/pvss/traits/mod.rs:28-33): note the assert bound is
`get_total_num_players()`, which for a weighted config is the number of REAL
players `n`, not the number of virtual shares `W`. -/
def WeightedConfig.get_player (sc : WeightedConfig) (i : ℕ) : Option Player :=
  if i < sc.get_total_num_players then some ⟨i⟩ else none

/-- `WeightedConfig::get_virtual_player(player, i)`
(src/pvss/weighted/weighted_config.rs:80-82):
`self.get_player(self.starting_index[player.id] + i)`. Both the vector
indexing panic and the `get_player` assert are modelled as `none`. -/
def WeightedConfig.get_virtual_player (sc : WeightedConfig) (player : Player)
    (i : ℕ) : Option Player :=
  match sc.starting_index[player.id]? with
  | none => none
  | some s => sc.get_player (s + i)

/-- A loop that applies a fallible (panic-modelled-as-`none`) step to each
element in order, collecting the results; the first failure aborts the whole
computation, as a Rust panic would. -/
def optionTraverse {A B : Type} (f : A → Option B) : List A → Option (List B)
  | [] => some []
  | x :: xs =>
    match f x with
    | none => none
    | some y => (optionTraverse f xs).map (fun ys => y :: ys)

/-- `SecretSharingConfig::get_random_subset_of_capable_players` for
`WeightedConfig` (src/pvss/weighted/weighted_config.rs:104-116): the body is
`todo!()`, an unconditional panic, modelled as `none`. The `rngChoice` argument
models the injected random-number generator (as the index-sampling oracle
`(range, count) ↦ chosen indices` that `choose_multiple` would consult). -/
def WeightedConfig.get_random_subset_of_capable_players (sc : WeightedConfig)
    (rngChoice : ℕ → ℕ → List ℕ) : Option (List Player) :=
  none

/-- `SecretSharingConfig::get_random_subset_of_capable_players` for
`ThresholdConfig` (src/pvss/threshold_config.rs:59-68):
`(0..get_total_num_shares()).choose_multiple(rng, t)` then `get_player` on
each chosen index. The rng is modelled as the oracle `rngChoice range count`
returning the sampled indices; the `get_player` assert is modelled via
`Option` as usual. -/
def ThresholdConfig.get_random_subset_of_capable_players (sc : ThresholdConfig)
    (rngChoice : ℕ → ℕ → List ℕ) : Option (List Player) :=
  optionTraverse (fun i => sc.get_player i) (rngChoice sc.get_total_num_shares sc.t)

section WeightedDecrypt

variable {T DK S P : Type}

/-- `Weighted::<T>::decrypt_own_share`
(src/pvss/weighted/weighting.rs:191-211), generic over the inner scheme `T`,
whose own `decrypt_own_share` is the parameter `innerDecrypt`. The source
sets `let weight = sc.get_total_weight();` (the TOTAL weight `W`) and loops
`for i in 0..weight`, calling `sc.get_virtual_player(player_id, i)` and the
inner decryption at that virtual player, pushing the secret and public
sub-shares into two vectors. Any panic inside `get_virtual_player` is
propagated as `none`. -/
def Weighted.decrypt_own_share
    (innerDecrypt : T → ThresholdConfig → Player → DK → S × P)
    (trx : T) (sc : WeightedConfig) (player_id : Player) (dk : DK) :
    Option (List S × List P) :=
  let weight := sc.get_total_weight
  (optionTraverse (fun i =>
      (sc.get_virtual_player player_id i).map (fun virtual_player =>
        innerDecrypt trx sc.get_threshold_config virtual_player dk))
    (List.range weight)).map
    (fun pairs => (pairs.map Prod.fst, pairs.map Prod.snd))

end WeightedDecrypt

section Reconstruct

variable {F G : Type} [AddCommMonoid G] [SMul F G]

/-- `blstrs`' `multi_exp(bases, scalars)` (external collaborator), by its
interface contract: the combined product `Σ scalars[i] • bases[i]`. -/
def multiExp (bases : List G) (scalars : List F) : G :=
  (List.zipWith (fun b c => c • b) bases scalars).sum

/-- `<DealtSecretKey as Reconstructable>::reconstruct`
(src/pvss/dealt_secret_key.rs:75-92).
`assert_ge!(shares.len(), t)` and `assert_le!(shares.len(), n)` are modelled
as `none`; then the player ids are collected, the Lagrange-at-zero
coefficients computed for them, and the share group elements (the `h_hat`
field of each `DealtSecretKeyShare`, here the `G` component directly)
multi-exponentiated by those coefficients. `lagrange_coefficients_at_zero`
lives in src/algebra/lagrange.rs, which is not under src/, so it is taken as
the opaque parameter `lagrangeAtZero`; the source's
`assert_eq!(lagr.len(), bases.len())` is modelled as `none` on mismatch. -/
def DealtSecretKey.reconstruct
    (lagrangeAtZero : BatchEvaluationDomain → List ℕ → List F)
    (sc : ThresholdConfig) (shares : List (Player × G)) : Option G :=
  if shares.length < sc.get_threshold then none
  else if shares.length > sc.get_total_num_players then none
  else
    let ids := shares.map (fun ps => ps.1.id)
    let lagr := lagrangeAtZero sc.batch_dom ids
    let bases := shares.map Prod.snd
    if lagr.length = bases.length then some (multiExp bases lagr) else none

end Reconstruct

section Scrape

variable {F G1 G2 PP EK : Type}

/-- The SCRAPE `Transcript` (src/pvss/scrape/transcript.rs:62-72): commitment
`u2_hat` to `f(0)`, the `t` coefficient commitments `F`, the `n` evaluation
commitments `A`, and the `n` encrypted evaluations `Y_hat`. Generic over the
two curve-group carriers. -/
structure Transcript (G1 G2 : Type) where
  u2_hat : G2
  F : List G1
  A : List G1
  Y_hat : List G2
deriving DecidableEq, Repr

/-- `Transcript::verify` (src/pvss/scrape/transcript.rs:135-284): the length
checks at lines 142-154, in source order (`eks`, then `A`, then `Y_hat`, then
`F`), each returning `false` on mismatch; everything after them (Fiat-Shamir,
the Lagrange consistency multi-exponentiation and the batched multi-pairing)
is the opaque parameter `cryptoChecks`, reached only when all four lengths
match. -/
def Transcript.verify
    (cryptoChecks : Transcript G1 G2 → ThresholdConfig → PP → List EK →
      List ℕ → Bool)
    (trx : Transcript G1 G2) (sc : ThresholdConfig) (pp : PP) (eks : List EK)
    (dst : List ℕ) : Bool :=
  if eks.length ≠ sc.n then false
  else if trx.A.length ≠ sc.n then false
  else if trx.Y_hat.length ≠ sc.n then false
  else if trx.F.length ≠ sc.t then false
  else cryptoChecks trx sc pp eks dst

/-- The in-place update `for i in 0..n { xs[i] += ys[i] }` used by
`Transcript::aggregate_with`: the first `n` entries of `xs` become the
pointwise sums, the rest of `xs` is untouched; an out-of-bounds index in
either vector is a panic, modelled as `none`. -/
def addAssignFirst [Add G1] (n : ℕ) (xs ys : List G1) : Option (List G1) :=
  if n ≤ xs.length ∧ n ≤ ys.length then
    some (List.zipWith (fun a b => a + b) (xs.take n) (ys.take n) ++ xs.drop n)
  else none

/-- `Transcript::aggregate_with` (src/pvss/scrape/transcript.rs:286-299):
`self.u2_hat += other.u2_hat`, then `A[i] += other.A[i]` and
`Y_hat[i] += other.Y_hat[i]` for `i < sc.n`, then `F[i] += other.F[i]` for
`i < sc.t`. `other` is only read; the mutated receiver is returned. -/
def Transcript.aggregate_with [Add G1] [Add G2] (self : Transcript G1 G2)
    (sc : ThresholdConfig) (other : Transcript G1 G2) :
    Option (Transcript G1 G2) := do
  let u2_hat := self.u2_hat + other.u2_hat
  let A ← addAssignFirst sc.n self.A other.A
  let Y_hat ← addAssignFirst sc.n self.Y_hat other.Y_hat
  let F ← addAssignFirst sc.t self.F other.F
  some { u2_hat := u2_hat, F := F, A := A, Y_hat := Y_hat }

/-- `Transcript::decrypt_own_share` (src/pvss/scrape/transcript.rs:307-321):
reads the ciphertext `Y_hat[player.id]` (panic on out-of-range, modelled as
`none`), exponentiates it by the decryption key `dk` to get the
`DealtSecretKeyShare`, and takes `A[player.id]` unchanged as the
`DealtPubKeyShare`. The transcript is only read (`&self`). -/
def Transcript.decrypt_own_share [SMul F G2] (self : Transcript G1 G2)
    (_sc : ThresholdConfig) (player_id : Player) (dk : F) :
    Option (G2 × G1) :=
  match self.Y_hat[player_id.id]?, self.A[player_id.id]? with
  | some ctxt, some vk => some (dk • ctxt, vk)
  | _, _ => none

end Scrape

section FiatShamir

/-- One entry of a merlin hash transcript, as the code drives it: an appended
labelled message, an appended labelled `u64`, or a drawn labelled challenge.
Merlin itself is an external collaborator; only the order and content of the
operations applied to it are modelled. -/
inductive FSItem where
  | msg (label : String) (data : List ℕ)
  | u64 (label : String) (v : ℕ)
  | chal (label : String)
deriving DecidableEq, Repr

/-- The byte string of the constant `PVSS_DOM_SEP = b"APTOS_SCRAPE_PVSS_DST"`
(src/pvss/scrape/fiat_shamir.rs:10). -/
def PVSS_DOM_SEP : List ℕ :=
  "APTOS_SCRAPE_PVSS_DST".toList.map Char.toNat

/-- The byte string of `PVSS_HASH_TO_SCALAR_DST`
(src/pvss/scrape/fiat_shamir.rs:11). -/
def PVSS_HASH_TO_SCALAR_DST : List ℕ :=
  "APTOS_SCRAPE_PVSS_HASH_TO_SCALAR_DST".toList.map Char.toNat

/-- `merlin::Transcript::new(dst)`: a fresh hash transcript seeded with the
protocol domain-separation label. -/
def merlinNew (dst : List ℕ) : List FSItem :=
  [FSItem.msg "protocol-label" dst]

/-- `FiatShamirProtocol::pvss_domain_sep` (src/pvss/scrape/fiat_shamir.rs:39-43):
appends `("dom-sep", PVSS_DOM_SEP)`, then `t` and `n` as labelled `u64`s. -/
def pvss_domain_sep (st : List FSItem) (sc : ThresholdConfig) : List FSItem :=
  st ++ [FSItem.msg "dom-sep" PVSS_DOM_SEP, FSItem.u64 "t" sc.t,
    FSItem.u64 "n" sc.n]

/-- `FiatShamirProtocol::append_public_parameters`
(src/pvss/scrape/fiat_shamir.rs:45-47): appends `("pp", pp.to_bytes())`;
the serialization is the opaque parameter `ppBytes`. -/
def append_public_parameters {PP : Type} (ppBytes : PP → List ℕ)
    (st : List FSItem) (pp : PP) : List FSItem :=
  st ++ [FSItem.msg "pp" (ppBytes pp)]

/-- `FiatShamirProtocol::append_encryption_keys`
(src/pvss/scrape/fiat_shamir.rs:49-57) via `append_g2_vector`
(src/utils/fiat_shamir.rs): appends `("encryption-keys", len)` as a `u64`,
then one `("g2_point", compressed ek)` message per key; the compression is
the opaque parameter `ekBytes`. -/
def append_encryption_keys {EK : Type} (ekBytes : EK → List ℕ)
    (st : List FSItem) (eks : List EK) : List FSItem :=
  st ++ [FSItem.u64 "encryption-keys" eks.length] ++
    eks.map (fun ek => FSItem.msg "g2_point" (ekBytes ek))

/-- `FiatShamirProtocol::append_transcript`
(src/pvss/scrape/fiat_shamir.rs:59-61): appends
`("transcript", trx.to_bytes())`; the serialization is the opaque parameter
`trxBytes`. -/
def append_transcript {G1 G2 : Type} (trxBytes : Transcript G1 G2 → List ℕ)
    (st : List FSItem) (trx : Transcript G1 G2) : List FSItem :=
  st ++ [FSItem.msg "transcript" (trxBytes trx)]

/-- `FiatShamirProtocol::challenge_lagrange_scalar`
(src/pvss/scrape/fiat_shamir.rs:63-68): draws 64 challenge bytes under the
label `"challenge_alpha"` (the hash state ratchets, recorded as a `chal`
entry) and maps them to a scalar via `hash_to_scalar` with
`PVSS_HASH_TO_SCALAR_DST`; `chalBytes` and `hashToScalar` model the external
merlin and SHA3 primitives. -/
def challenge_lagrange_scalar {F : Type}
    (hashToScalar : List ℕ → List ℕ → F)
    (chalBytes : List FSItem → String → List ℕ)
    (st : List FSItem) : F × List FSItem :=
  (hashToScalar (chalBytes st "challenge_alpha") PVSS_HASH_TO_SCALAR_DST,
    st ++ [FSItem.chal "challenge_alpha"])

/-- `FiatShamirProtocol::challenge_multipairing_scalar`
(src/pvss/scrape/fiat_shamir.rs:70-75): as
`challenge_lagrange_scalar`, under the label `"challenge_multipairing"`. -/
def challenge_multipairing_scalar {F : Type}
    (hashToScalar : List ℕ → List ℕ → F)
    (chalBytes : List FSItem → String → List ℕ)
    (st : List FSItem) : F × List FSItem :=
  (hashToScalar (chalBytes st "challenge_multipairing")
      PVSS_HASH_TO_SCALAR_DST,
    st ++ [FSItem.chal "challenge_multipairing"])

/-- `Transcript::fiat_shamir` (src/pvss/scrape/transcript.rs:365-383): seeds a
merlin transcript with `dst`, appends the PVSS domain separator, the public
parameters, the encryption keys and the serialized transcript, then draws
`alpha` and `r` in that order. Returns the pair and the final hash-transcript
state trace. -/
def Transcript.fiat_shamir {F G1 G2 PP EK : Type}
    (hashToScalar : List ℕ → List ℕ → F)
    (chalBytes : List FSItem → String → List ℕ)
    (ppBytes : PP → List ℕ) (ekBytes : EK → List ℕ)
    (trxBytes : Transcript G1 G2 → List ℕ)
    (self : Transcript G1 G2) (sc : ThresholdConfig) (pp : PP)
    (eks : List EK) (dst : List ℕ) : (F × F) × List FSItem :=
  let fs_t := merlinNew dst
  let fs_t := pvss_domain_sep fs_t sc
  let fs_t := append_public_parameters ppBytes fs_t pp
  let fs_t := append_encryption_keys ekBytes fs_t eks
  let fs_t := append_transcript trxBytes fs_t self
  let alphaSt := challenge_lagrange_scalar hashToScalar chalBytes fs_t
  let rSt := challenge_multipairing_scalar hashToScalar chalBytes alphaSt.2
  ((alphaSt.1, rSt.1), rSt.2)

/-- Spec-side definition for the Fiat-Shamir order claim: the appended items,
in the order the spec prescribes — the protocol label, a domain separator
binding `(t, n)`, the public parameters, the encryption keys (length-prefixed
vector of compressed points), and the serialized transcript bytes. -/
def specFiatShamirAppends {G1 G2 PP EK : Type}
    (ppBytes : PP → List ℕ) (ekBytes : EK → List ℕ)
    (trxBytes : Transcript G1 G2 → List ℕ)
    (trx : Transcript G1 G2) (sc : ThresholdConfig) (pp : PP)
    (eks : List EK) (dst : List ℕ) : List FSItem :=
  [FSItem.msg "protocol-label" dst,
    FSItem.msg "dom-sep" PVSS_DOM_SEP,
    FSItem.u64 "t" sc.t,
    FSItem.u64 "n" sc.n,
    FSItem.msg "pp" (ppBytes pp),
    FSItem.u64 "encryption-keys" eks.length]
  ++ eks.map (fun ek => FSItem.msg "g2_point" (ekBytes ek))
  ++ [FSItem.msg "transcript" (trxBytes trx)]

end FiatShamir

section PubParams

variable {G1 G2 : Type}

/-- `CryptoMaterialError` (external `aptos_crypto` crate), restricted to the
two variants the public-parameter deserializer produces. -/
inductive CryptoMaterialError where
  | WrongLengthError
  | DeserializationError
deriving DecidableEq, Repr

/-- `G1_PROJ_NUM_BYTES` (src/constants.rs): compressed G1 point size. -/
def G1_PROJ_NUM_BYTES : ℕ := 48

/-- `G2_PROJ_NUM_BYTES` (src/constants.rs): compressed G2 point size. -/
def G2_PROJ_NUM_BYTES : ℕ := 96

/-- `NUM_BYTES` (src/pvss/scrape/public_parameters.rs:15):
`G1_PROJ_NUM_BYTES + 2 * G2_PROJ_NUM_BYTES` = 240. -/
def PublicParameters.NUM_BYTES : ℕ := G1_PROJ_NUM_BYTES + 2 * G2_PROJ_NUM_BYTES

/-- SCRAPE `PublicParameters` (src/pvss/scrape/public_parameters.rs:19-26):
the encryption-key base (held by `encryption_dlog::g2::PublicParameters`, a
thin newtype around the G2 point — that module is not under src/; modelled
from the spec as the point itself), the dealt-public-key base `u1_hat`, and
the commitment base `g1`. -/
structure PublicParameters (G1 G2 : Type) where
  enc : G2
  u1_hat : G2
  g1 : G1
deriving DecidableEq, Repr

/-- `PublicParameters::to_bytes` (src/pvss/scrape/public_parameters.rs:66-73):
compressed encryption base, then `u1_hat`, then `g1`, concatenated; the point
compressions are the opaque parameters `g1Compress`/`g2Compress`. -/
def PublicParameters.to_bytes (g1Compress : G1 → List ℕ)
    (g2Compress : G2 → List ℕ) (pp : PublicParameters G1 G2) : List ℕ :=
  g2Compress pp.enc ++ g2Compress pp.u1_hat ++ g1Compress pp.g1

/-- `<PublicParameters as TryFrom<&[u8]>>::try_from`
(src/pvss/scrape/public_parameters.rs:101-129): length check against
`NUM_BYTES` first (`WrongLengthError`), then the three fixed-size slices are
decompressed (`g1Decompress`/`g2Decompress` model
`from_compressed`); all three must be valid points, else
`DeserializationError`. -/
def PublicParameters.try_from (g1Decompress : List ℕ → Option G1)
    (g2Decompress : List ℕ → Option G2) (bytes : List ℕ) :
    Except CryptoMaterialError (PublicParameters G1 G2) :=
  if bytes.length = PublicParameters.NUM_BYTES then
    let h1_hat_bytes := bytes.take G2_PROJ_NUM_BYTES
    let u1_hat_bytes := (bytes.drop G2_PROJ_NUM_BYTES).take G2_PROJ_NUM_BYTES
    let g1_bytes := bytes.drop (2 * G2_PROJ_NUM_BYTES)
    match g2Decompress h1_hat_bytes, g2Decompress u1_hat_bytes,
        g1Decompress g1_bytes with
    | some h1_hat, some u1_hat, some g1 =>
      Except.ok { enc := h1_hat, u1_hat := u1_hat, g1 := g1 }
    | _, _, _ => Except.error CryptoMaterialError.DeserializationError
  else Except.error CryptoMaterialError.WrongLengthError

end PubParams

/-!
Theorems. Helper lemmas first, then one theorem per claim (with witnesses and
counterexamples where applicable).
-/

/-- The foldl of the starting-index loop, characterized: starting from `si`,
it appends the running sums `last(si) + Σ (take (i+1) ws)`. -/
theorem foldl_build (ws : List ℕ) : ∀ (si : List ℕ),
    ws.foldl (fun si w => si ++ [si.getLast?.getD 0 + w]) si
      = si ++ (List.range ws.length).map
          (fun i => si.getLast?.getD 0 + (ws.take (i + 1)).sum) := by
  induction ws with
  | nil => intro si; simp
  | cons w ws ih =>
    intro si
    simp only [List.foldl_cons]
    rw [ih (si ++ [si.getLast?.getD 0 + w])]
    simp only [List.length_cons, List.range_succ_eq_map, List.map_cons,
      List.map_map, List.getLast?_concat, Option.getD_some]
    rw [List.append_assoc, List.singleton_append]
    congr 1
    rw [List.cons_eq_cons]
    constructor
    · simp
    · refine List.map_congr_left fun a _ => ?_
      simp only [Function.comp_apply, Nat.succ_eq_add_one,
        List.take_succ_cons, List.sum_cons]
      omega

/-- `buildStartingIndex weight` is the list of prefix sums
`Σ_{j<i} weight[j]` for `i < weight.length`. -/
theorem buildStartingIndex_eq (weight : List ℕ) :
    buildStartingIndex weight
      = (List.range weight.length).map (fun i => (weight.take i).sum) := by
  unfold buildStartingIndex
  rw [foldl_build]
  have h2 : (0 : ℕ) :: (List.range weight.length).map
        (fun i => (weight.take (i + 1)).sum)
      = (List.range (weight.length + 1)).map
          (fun i => (weight.take i).sum) := by
    rw [List.range_succ_eq_map, List.map_cons, List.map_map]
    simp [Function.comp, Nat.succ_eq_add_one]
  simp only [List.getLast?_singleton, Option.getD_some, Nat.zero_add,
    List.singleton_append]
  rw [h2, List.range_succ, List.map_append]
  simp [List.dropLast_concat]

/-- Traversing `get_player` over a list of in-range indices succeeds and
returns exactly those players. -/
theorem optionTraverse_get_player (sc : ThresholdConfig) (l : List ℕ)
    (h : ∀ i ∈ l, i < sc.get_total_num_players) :
    optionTraverse (fun i => sc.get_player i) l
      = some (l.map (fun i => ⟨i⟩)) := by
  induction l with
  | nil => rfl
  | cons x xs ih =>
    have hx : x < sc.get_total_num_players := h x (by simp)
    have ih2 := ih (fun i hi => h i (List.mem_cons_of_mem _ hi))
    simp [optionTraverse, ThresholdConfig.get_player, hx] at ih2 ⊢
    simp [ih2]

/-- Claim C2: `reconstruct(sc, shares)` on the dealt-secret-key type is a
fatal assertion failure (modelled `none`) when `shares.len() < sc.t` or
`shares.len() > sc.n`; otherwise it returns the multi-exponentiation of the
supplied share group elements by the Lagrange-at-zero coefficients computed
for the supplied player indices (the coefficient function, from the absent
src/algebra module, is opaque; the source's internal length assert on its
output is reflected as the last hypothesis). -/
theorem claim_C2_reconstruct {F G : Type} [AddCommMonoid G] [SMul F G]
    (lagrangeAtZero : BatchEvaluationDomain → List ℕ → List F)
    (sc : ThresholdConfig) (shares : List (Player × G)) :
    (shares.length < sc.t ∨ shares.length > sc.n →
      DealtSecretKey.reconstruct lagrangeAtZero sc shares = none)
    ∧ (sc.t ≤ shares.length → shares.length ≤ sc.n →
        (lagrangeAtZero sc.batch_dom
            (shares.map (fun ps => ps.1.id))).length = shares.length →
        DealtSecretKey.reconstruct lagrangeAtZero sc shares
          = some (multiExp (shares.map Prod.snd)
              (lagrangeAtZero sc.batch_dom
                (shares.map (fun ps => ps.1.id))))) := by
  constructor
  · intro h
    simp only [DealtSecretKey.reconstruct, ThresholdConfig.get_threshold,
      ThresholdConfig.get_total_num_players]
    split_ifs with h1 h2 h3
    · rfl
    · rfl
    · exfalso
      rcases h with h | h
      · exact h1 h
      · exact h2 h
    · rfl
  · intro h1 h2 h3
    simp only [DealtSecretKey.reconstruct, ThresholdConfig.get_threshold,
      ThresholdConfig.get_total_num_players]
    have hc : (lagrangeAtZero sc.batch_dom
          (shares.map (fun ps => ps.1.id))).length
        = (shares.map Prod.snd).length := by
      rw [List.length_map]
      exact h3
    rw [if_neg (by omega), if_neg (by omega), if_pos hc]

/-- Claim C2, witness: for the 1-out-of-2 configuration with the all-ones
coefficient function, a single share `(player 0, 5)` reconstructs to
`some (1 • 5)`, and an empty share list hits the lower-bound assert. -/
theorem claim_C2_reconstruct_witness :
    DealtSecretKey.reconstruct
        (fun _ ids => ids.map (fun _ => (1 : ℕ)))
        (ThresholdConfig.new 1 2) [((⟨0⟩ : Player), (5 : ℕ))] = some 5
    ∧ DealtSecretKey.reconstruct
        (fun _ ids => ids.map (fun _ => (1 : ℕ)))
        (ThresholdConfig.new 1 2) ([] : List (Player × ℕ)) = none := by
  constructor
  · have h := (claim_C2_reconstruct
        (fun _ ids => ids.map (fun _ => (1 : ℕ)))
        (ThresholdConfig.new 1 2) [(⟨0⟩, (5 : ℕ))]).2
      (by decide) (by decide) (by decide)
    rw [h]
    simp [multiExp]
  · exact (claim_C2_reconstruct
        (fun _ ids => ids.map (fun _ => (1 : ℕ)))
        (ThresholdConfig.new 1 2) []).1 (by decide)

/-- Claim C3: SCRAPE `verify` returns `false` whenever `eks.len() ≠ sc.n`, or
`A.len() ≠ sc.n`, or `Y_hat.len() ≠ sc.n`, or `F.len() ≠ sc.t` — regardless
of the cryptographic checks (which are never reached, as the conclusion holds
for every `cryptoChecks`). -/
theorem claim_C3_verify_length_checks {G1 G2 PP EK : Type}
    (cryptoChecks : Transcript G1 G2 → ThresholdConfig → PP → List EK →
      List ℕ → Bool)
    (trx : Transcript G1 G2) (sc : ThresholdConfig) (pp : PP)
    (eks : List EK) (dst : List ℕ)
    (h : eks.length ≠ sc.n ∨ trx.A.length ≠ sc.n ∨ trx.Y_hat.length ≠ sc.n
      ∨ trx.F.length ≠ sc.t) :
    Transcript.verify cryptoChecks trx sc pp eks dst = false := by
  unfold Transcript.verify
  split_ifs with h1 h2 h3 h4
  any_goals rfl
  rcases h with h | h | h | h
  exacts [absurd h h1, absurd h h2, absurd h h3, absurd h h4]

/-- Claim C3, witness: an empty transcript against a 1-out-of-2 configuration
fails verification on the encryption-key length check, even with a
cryptographic-check oracle that always accepts. -/
theorem claim_C3_verify_length_checks_witness :
    Transcript.verify
        ((fun _ _ _ _ _ => true) :
          Transcript ℕ ℕ → ThresholdConfig → ℕ → List ℕ → List ℕ → Bool)
        (Transcript.mk (0 : ℕ) ([] : List ℕ) [] [])
        (ThresholdConfig.new 1 2) 0 [] []
      = false :=
  claim_C3_verify_length_checks _ _ _ _ _ _ (Or.inl (by decide))

/-- Claim C4: the SCRAPE Fiat-Shamir challenges α and r are derived from a
hash transcript to which, in this exact order and before any challenge is
drawn, the code appends the `dst` protocol label, a domain separator binding
`(t, n)`, the public parameters, the encryption keys, and the serialized
transcript bytes; α is drawn first (over the append-only state), then r (over
the state further ratcheted by α's draw). -/
theorem claim_C4_fiat_shamir_order {F G1 G2 PP EK : Type}
    (hashToScalar : List ℕ → List ℕ → F)
    (chalBytes : List FSItem → String → List ℕ)
    (ppBytes : PP → List ℕ) (ekBytes : EK → List ℕ)
    (trxBytes : Transcript G1 G2 → List ℕ)
    (trx : Transcript G1 G2) (sc : ThresholdConfig) (pp : PP)
    (eks : List EK) (dst : List ℕ) :
    Transcript.fiat_shamir hashToScalar chalBytes ppBytes ekBytes trxBytes
        trx sc pp eks dst
      = ((hashToScalar
            (chalBytes
              (specFiatShamirAppends ppBytes ekBytes trxBytes trx sc pp eks
                dst)
              "challenge_alpha")
            PVSS_HASH_TO_SCALAR_DST,
          hashToScalar
            (chalBytes
              (specFiatShamirAppends ppBytes ekBytes trxBytes trx sc pp eks
                  dst
                ++ [FSItem.chal "challenge_alpha"])
              "challenge_multipairing")
            PVSS_HASH_TO_SCALAR_DST),
         specFiatShamirAppends ppBytes ekBytes trxBytes trx sc pp eks dst
           ++ [FSItem.chal "challenge_alpha",
               FSItem.chal "challenge_multipairing"]) := by
  simp [Transcript.fiat_shamir, merlinNew, pvss_domain_sep,
    append_public_parameters, append_encryption_keys, append_transcript,
    challenge_lagrange_scalar, challenge_multipairing_scalar,
    specFiatShamirAppends]

/-- Claim C5, counterexample: `ThresholdConfig::new(2, 1)` violates the caller
contract 1 ≤ t ≤ n (2 > 1), yet no assert fires: it returns a configuration
with threshold 2 and 1 player, refuting "fails via an assert whenever the
caller contract is violated". -/
theorem claim_C5_counterexample :
    (ThresholdConfig.new 2 1).t = 2 ∧ (ThresholdConfig.new 2 1).n = 1
      ∧ ¬(2 ≤ 1) := by
  decide

/-- Claim C5, amended: `ThresholdConfig::new(t, n)` performs no validation of
`t` against `n`: for every `t` and `n` (contract-violating or not) it returns
a configuration with threshold `t` and `n` players. -/
theorem claim_C5_amended (t n : ℕ) :
    (ThresholdConfig.new t n).t = t ∧ (ThresholdConfig.new t n).n = n :=
  ⟨rfl, rfl⟩

/-- Claim C8, counterexample: `WeightedConfig::new(1, 2, [1])` has a
starting-index table with 1 entry but 2 players, refuting "starting_index has
one entry per player" for arbitrary `n` and `weights`. -/
theorem claim_C8_counterexample :
    (WeightedConfig.new 1 2 [1]).starting_index.length = 1
      ∧ (WeightedConfig.new 1 2 [1]).get_total_num_players = 2
      ∧ (1 : ℕ) ≠ 2 := by
  decide

/-- Claim C8, amended: the `WeightedConfig` built by
`WeightedConfig::new(w, n, weights)` has a starting-index table with one entry
per entry of `weights` (one per player exactly when `weights.len() == n`,
which `new` does not enforce), with `starting_index[i] = Σ_{j<i} weights[j]`,
and its internal `ThresholdConfig` is `(w, W)` with `W = Σ weights`. -/
theorem claim_C8_amended (w n : ℕ) (weight : List ℕ) :
    (WeightedConfig.new w n weight).starting_index
        = (List.range weight.length).map (fun i => (weight.take i).sum)
      ∧ (WeightedConfig.new w n weight).tc.t = w
      ∧ (WeightedConfig.new w n weight).tc.n = weight.sum :=
  ⟨buildStartingIndex_eq weight, rfl, rfl⟩

/-- Claim C1, code-bug evaluation: `Weighted::<T>::decrypt_own_share` loops
over `sc.get_total_weight()` (the total weight `W`) instead of the player's
own weight. At `WeightedConfig::new(1, 2, [1, 1])`, player 0 (weight 1)
receives TWO inner shares — the second decrypted at virtual player 1, which
belongs to player 1 — and at `WeightedConfig::new(2, 3, [2, 4, 3])` the loop
runs the virtual-player index past `get_total_num_players()` and panics
(modelled `none`), though player 0 owns valid slots 0 and 1. -/
theorem claim_C1_bug_eval :
    Weighted.decrypt_own_share
        (fun (_ : Unit) (_ : ThresholdConfig) (p : Player) (_ : Unit) =>
          (p.id, p.id))
        () (WeightedConfig.new 1 2 [1, 1]) ⟨0⟩ ()
      = some ([0, 1], [0, 1])
    ∧ (WeightedConfig.new 1 2 [1, 1]).get_player_weight ⟨0⟩ = some 1
    ∧ ([0, 1] : List ℕ).length ≠ 1
    ∧ Weighted.decrypt_own_share
        (fun (_ : Unit) (_ : ThresholdConfig) (p : Player) (_ : Unit) =>
          (p.id, p.id))
        () (WeightedConfig.new 2 3 [2, 4, 3]) ⟨0⟩ ()
      = none := by
  decide

/-- The in-place pointwise-addition loop, on vectors of exactly the iterated
length, is `zipWith (+)`. -/
theorem addAssignFirst_eq_zipWith {G : Type} [Add G] (n : ℕ) (xs ys : List G)
    (hx : xs.length = n) (hy : ys.length = n) :
    addAssignFirst n xs ys
      = some (List.zipWith (fun a b => a + b) xs ys) := by
  subst hx
  unfold addAssignFirst
  rw [if_pos ⟨le_refl _, le_of_eq hy.symm⟩]
  rw [List.take_length, List.drop_length, List.append_nil, ← hy,
    List.take_length]

/-- Claim C6: for two SCRAPE transcripts shaped by the same `ThresholdConfig`
(`A` and `Y_hat` of length `n`, `F` of length `t` in both),
`aggregate_with` replaces `u2_hat` by `u2_hat + other.u2_hat` and each entry
of `A`, `Y_hat` and `F` by the pointwise group sum, and nothing else: the
result is exactly the transcript of pointwise sums (`other` is only read). -/
theorem claim_C6_aggregate {G1 G2 : Type} [Add G1] [Add G2]
    (sc : ThresholdConfig) (self other : Transcript G1 G2)
    (hsA : self.A.length = sc.n) (hoA : other.A.length = sc.n)
    (hsY : self.Y_hat.length = sc.n) (hoY : other.Y_hat.length = sc.n)
    (hsF : self.F.length = sc.t) (hoF : other.F.length = sc.t) :
    self.aggregate_with sc other = some
      { u2_hat := self.u2_hat + other.u2_hat,
        F := List.zipWith (fun a b => a + b) self.F other.F,
        A := List.zipWith (fun a b => a + b) self.A other.A,
        Y_hat := List.zipWith (fun a b => a + b) self.Y_hat other.Y_hat } := by
  unfold Transcript.aggregate_with
  rw [addAssignFirst_eq_zipWith sc.n self.A other.A hsA hoA,
    addAssignFirst_eq_zipWith sc.n self.Y_hat other.Y_hat hsY hoY,
    addAssignFirst_eq_zipWith sc.t self.F other.F hsF hoF]
  rfl

/-- Claim C6, witness: two concrete 1-out-of-2 transcripts over ℕ aggregate to
the transcript of pointwise sums. -/
theorem claim_C6_aggregate_witness :
    Transcript.aggregate_with
        (Transcript.mk (1 : ℕ) ([2] : List ℕ) [3, 4] [5, 6])
        (ThresholdConfig.new 1 2)
        (Transcript.mk 10 [20] [30, 40] [50, 60])
      = some (Transcript.mk 11 [22] [33, 44] [55, 66]) := by
  rw [claim_C6_aggregate (ThresholdConfig.new 1 2) _ _ (by decide) (by decide)
    (by decide) (by decide) (by decide) (by decide)]
  decide

/-- Claim C7: SCRAPE `decrypt_own_share` for player `i < n` (on a transcript
with `n` ciphertexts and `n` evaluation commitments, as `deal` produces)
returns the pair whose secret-key share is the ciphertext `Y_hat[i]` raised
to the decryption key `dk` and whose public-key share is `A[i]` unchanged;
the transcript itself is only read. -/
theorem claim_C7_decrypt_own_share {F G1 G2 : Type} [SMul F G2]
    (self : Transcript G1 G2) (sc : ThresholdConfig) (player_id : Player)
    (dk : F) (hY : self.Y_hat.length = sc.n) (hA : self.A.length = sc.n)
    (hp : player_id.id < sc.n) :
    self.decrypt_own_share sc player_id dk
      = some (dk • self.Y_hat.get ⟨player_id.id, lt_of_lt_of_eq hp hY.symm⟩,
          self.A.get ⟨player_id.id, lt_of_lt_of_eq hp hA.symm⟩) := by
  unfold Transcript.decrypt_own_share
  rw [List.getElem?_eq_getElem (lt_of_lt_of_eq hp hY.symm),
    List.getElem?_eq_getElem (lt_of_lt_of_eq hp hA.symm)]
  simp [List.get_eq_getElem]

/-- Claim C7, witness: on the concrete transcript with `Y_hat = [10, 11]` and
`A = [8, 9]`, player 1 with decryption key 3 gets `(3 • 11, 9)`. -/
theorem claim_C7_decrypt_own_share_witness :
    Transcript.decrypt_own_share
        (Transcript.mk (0 : ℕ) ([7] : List ℕ) [8, 9] [10, 11])
        (ThresholdConfig.new 1 2) ⟨1⟩ (3 : ℕ)
      = some (33, 9) := by
  rw [claim_C7_decrypt_own_share
    (Transcript.mk (0 : ℕ) ([7] : List ℕ) [8, 9] [10, 11])
    (ThresholdConfig.new 1 2) ⟨1⟩ (3 : ℕ) (by decide) (by decide) (by decide)]
  norm_num [List.get_eq_getElem]

/-- Claim C9: `PublicParameters` deserialization returns a length error for
every input whose length differs from `|G1| + 2·|G2| = 240` bytes; returns a
deserialization error for every correctly-sized input in which any of the
three components fails point decompression; and returns `Ok` on every input
that is the serialization of valid parameters (given that the external
compressed encodings have the fixed sizes and decompression inverts
compression). -/
theorem claim_C9_pp_serialization {G1 G2 : Type}
    (g1Decompress : List ℕ → Option G1) (g2Decompress : List ℕ → Option G2)
    (g1Compress : G1 → List ℕ) (g2Compress : G2 → List ℕ) :
    (∀ bytes : List ℕ, bytes.length ≠ PublicParameters.NUM_BYTES →
        PublicParameters.try_from g1Decompress g2Decompress bytes
          = Except.error CryptoMaterialError.WrongLengthError)
    ∧ (∀ bytes : List ℕ, bytes.length = PublicParameters.NUM_BYTES →
        (g2Decompress (bytes.take G2_PROJ_NUM_BYTES) = none
          ∨ g2Decompress ((bytes.drop G2_PROJ_NUM_BYTES).take
              G2_PROJ_NUM_BYTES) = none
          ∨ g1Decompress (bytes.drop (2 * G2_PROJ_NUM_BYTES)) = none) →
        PublicParameters.try_from g1Decompress g2Decompress bytes
          = Except.error CryptoMaterialError.DeserializationError)
    ∧ ((∀ x, g2Decompress (g2Compress x) = some x) →
        (∀ x, g1Decompress (g1Compress x) = some x) →
        (∀ x, (g2Compress x).length = G2_PROJ_NUM_BYTES) →
        (∀ x, (g1Compress x).length = G1_PROJ_NUM_BYTES) →
        ∀ pp : PublicParameters G1 G2,
          PublicParameters.try_from g1Decompress g2Decompress
              (pp.to_bytes g1Compress g2Compress)
            = Except.ok pp) := by
  refine ⟨fun bytes h => ?_, fun bytes h hnone => ?_, ?_⟩
  · unfold PublicParameters.try_from
    rw [if_neg h]
  · unfold PublicParameters.try_from
    rw [if_pos h]
    rcases hA : g2Decompress (bytes.take G2_PROJ_NUM_BYTES) with _ | x1 <;>
      rcases hB : g2Decompress ((bytes.drop G2_PROJ_NUM_BYTES).take
        G2_PROJ_NUM_BYTES) with _ | x2 <;>
      rcases hC : g1Decompress (bytes.drop (2 * G2_PROJ_NUM_BYTES))
        with _ | x3 <;>
      simp_all
  · intro h2inv h1inv h2len h1len pp
    simp only [PublicParameters.try_from, PublicParameters.to_bytes]
    have hlen : (g2Compress pp.enc ++ (g2Compress pp.u1_hat ++
        g1Compress pp.g1)).length = PublicParameters.NUM_BYTES := by
      simp [h2len, h1len, PublicParameters.NUM_BYTES, G1_PROJ_NUM_BYTES,
        G2_PROJ_NUM_BYTES]
    rw [List.append_assoc]
    rw [if_pos hlen]
    rw [List.take_left' (h2len pp.enc), List.drop_left' (h2len pp.enc)]
    rw [List.take_left' (h2len pp.u1_hat)]
    rw [show (2 : ℕ) * G2_PROJ_NUM_BYTES
        = G2_PROJ_NUM_BYTES + G2_PROJ_NUM_BYTES from rfl]
    rw [← List.drop_drop, List.drop_left' (h2len pp.enc),
      List.drop_left' (h2len pp.u1_hat)]
    rw [h2inv, h2inv, h1inv]

set_option maxRecDepth 4000

/-- Claim C9, witness: with toy fixed-size codecs over ℕ (first byte carries
the value, the rest are zero padding), a short input yields the length error,
an all-ones 240-byte input yields the deserialization error, and a serialized
parameter triple round-trips to `Ok`. -/
theorem claim_C9_pp_serialization_witness :
    PublicParameters.try_from
        ((fun l => match l with
          | x :: rest => if rest = List.replicate 47 0 then some x else none
          | [] => none) : List ℕ → Option ℕ)
        ((fun l => match l with
          | x :: rest => if rest = List.replicate 95 0 then some x else none
          | [] => none) : List ℕ → Option ℕ)
        [1, 2, 3]
      = Except.error CryptoMaterialError.WrongLengthError
    ∧ PublicParameters.try_from
        ((fun l => match l with
          | x :: rest => if rest = List.replicate 47 0 then some x else none
          | [] => none) : List ℕ → Option ℕ)
        ((fun l => match l with
          | x :: rest => if rest = List.replicate 95 0 then some x else none
          | [] => none) : List ℕ → Option ℕ)
        (List.replicate 240 1)
      = Except.error CryptoMaterialError.DeserializationError
    ∧ PublicParameters.try_from
        ((fun l => match l with
          | x :: rest => if rest = List.replicate 47 0 then some x else none
          | [] => none) : List ℕ → Option ℕ)
        ((fun l => match l with
          | x :: rest => if rest = List.replicate 95 0 then some x else none
          | [] => none) : List ℕ → Option ℕ)
        (PublicParameters.to_bytes
          (fun x => x :: List.replicate 47 0)
          (fun x => x :: List.replicate 95 0)
          (PublicParameters.mk (1 : ℕ) (2 : ℕ) (3 : ℕ)))
      = Except.ok (PublicParameters.mk 1 2 3) := by
  refine ⟨(claim_C9_pp_serialization _ _
      (fun x => x :: List.replicate 47 0)
      (fun x => x :: List.replicate 95 0)).1 [1, 2, 3] (by decide),
    (claim_C9_pp_serialization _ _
      (fun x => x :: List.replicate 47 0)
      (fun x => x :: List.replicate 95 0)).2.1 (List.replicate 240 1)
      (by decide) (Or.inl (by decide)),
    (claim_C9_pp_serialization _ _
      (fun x => x :: List.replicate 47 0)
      (fun x => x :: List.replicate 95 0)).2.2
      (fun x => by simp) (fun x => by simp)
      (fun x => by simp [G2_PROJ_NUM_BYTES])
      (fun x => by simp [G1_PROJ_NUM_BYTES])
      (PublicParameters.mk 1 2 3)⟩

/-- Claim C10: `WeightedConfig::get_random_subset_of_capable_players` panics
unconditionally (its body is `todo!()`, modelled `none`) for every weighted
configuration and rng; the unweighted `ThresholdConfig` does implement the
operation, returning the players at the rng-sampled indices whenever those
indices are in range. -/
theorem claim_C10_weighted_subset_todo :
    (∀ (sc : WeightedConfig) (rngChoice : ℕ → ℕ → List ℕ),
        sc.get_random_subset_of_capable_players rngChoice = none)
    ∧ (∀ (sc : ThresholdConfig) (rngChoice : ℕ → ℕ → List ℕ),
        (∀ i ∈ rngChoice sc.get_total_num_shares sc.t,
          i < sc.get_total_num_players) →
        sc.get_random_subset_of_capable_players rngChoice
          = some ((rngChoice sc.get_total_num_shares sc.t).map
              (fun i => ⟨i⟩))) := by
  refine ⟨fun sc rngChoice => rfl, fun sc rngChoice h => ?_⟩
  exact optionTraverse_get_player sc _ h

/-- Claim C10, witness: the weighted config (1-of-[1,1]) panics on any rng,
while the unweighted 1-out-of-2 config returns player 1 when the rng samples
index 1. -/
theorem claim_C10_weighted_subset_todo_witness :
    (WeightedConfig.new 1 2 [1, 1]).get_random_subset_of_capable_players
        (fun _ _ => [0]) = none
    ∧ (ThresholdConfig.new 1 2).get_random_subset_of_capable_players
        (fun _ _ => [1]) = some [⟨1⟩] :=
  ⟨claim_C10_weighted_subset_todo.1 _ _,
    claim_C10_weighted_subset_todo.2 (ThresholdConfig.new 1 2)
      (fun _ _ => [1]) (by decide)⟩

end AptosDkg
